import Mathlib

set_option maxRecDepth 20000

/-!
Verification development for the feed-finder worker.

JavaScript strings are modelled as lists of characters (`JStr`), and the
worker functions are translated one-to-one from the TypeScript source
(`src/worker/...`).  Platform primitives that live outside the repository
(the WHATWG URL parser, the DOM parser of node-html-parser, and the global
fetch) are passed in as explicit oracle parameters; everything else is the
source code, transcribed.
-/

namespace FeedFinder

/-- JavaScript strings, modelled as lists of characters. -/
abbrev JStr := List Char

/-- Conversion from a Lean string literal to the character-list model. -/
def jstr (s : String) : JStr := s.toList

/-- Whitespace test backing the models of String.prototype.trim and of
splitting on whitespace runs. -/
def isWs (c : Char) : Bool :=
  c == ' ' || c == '\t' || c == '\n' || c == '\r' || c == '\x0b' || c == '\x0c'

/-- Model of JavaScript String.prototype.trim. -/
def jsTrim (s : JStr) : JStr :=
  ((s.dropWhile isWs).reverse.dropWhile isWs).reverse

/-- Model of s.startsWith(pre). -/
def jsStartsWith (s pre : JStr) : Bool := pre.isPrefixOf s

/-- Model of s.endsWith(suf). -/
def jsEndsWith (s suf : JStr) : Bool := suf.isSuffixOf s

/-- Model of s.includes(needle): substring containment. -/
def jsIncludes : JStr → JStr → Bool
  | s, needle =>
    needle.isPrefixOf s ||
      match s with
      | [] => false
      | _ :: t => jsIncludes t needle

/-- Model of String.prototype.toLowerCase (ASCII, which covers every string
the worker compares). -/
def jsToLower (s : JStr) : JStr := s.map Char.toLower

/-- Inner loop of the model of s.split on a whitespace-run pattern; the
flag records whether the previous character belonged to a whitespace run,
so a run of any length produces a single cut. -/
def splitWsAux : JStr → JStr → Bool → List JStr
  | [], acc, _ => [acc.reverse]
  | c :: rest, acc, inWs =>
    if isWs c then
      if inWs then splitWsAux rest [] true
      else acc.reverse :: splitWsAux rest [] true
    else splitWsAux rest (c :: acc) false

/-- Model of s.split on a whitespace-run pattern: splits at each maximal
whitespace run, keeping the (possibly empty) fragments between runs. -/
def splitWs (s : JStr) : List JStr := splitWsAux s [] false

/-! ### Error taxonomy (src/worker/types.ts shapes, as used by the code) -/

/-- Discriminants of the tagged error values used across the worker. -/
inductive ErrorType
  | INVALID_REQUEST_BODY
  | MISSING_URL
  | INVALID_URL_FORMAT
  | URL_NOT_PERMITTED
  | FETCH_FAILED
  | NETWORK_ERROR
  | TIMEOUT_ERROR
  | PARSING_ERROR
deriving DecidableEq, Repr

/-- A tagged error value: discriminant, detail message, and the optional
upstream HTTP status that FETCH_FAILED errors may carry. -/
structure AppError where
  type : ErrorType
  message : JStr
  status : Option Nat := none
deriving DecidableEq, Repr

/-! ### JavaScript runtime values, for the request-body parser -/

/-- JavaScript values as far as parseRequestBody can observe them. -/
inductive JsValue
  | nullV
  | undefinedV
  | boolV (b : Bool)
  | numV (n : Int)
  | strV (s : JStr)
  | objV (fields : List (JStr × JsValue))
  | arrV (elems : List JsValue)

/-- JavaScript truthiness. -/
def truthy : JsValue → Bool
  | .nullV => false
  | .undefinedV => false
  | .boolV b => b
  | .numV n => !(n == 0)
  | .strV s => !s.isEmpty
  | .objV _ => true
  | .arrV _ => true

/-- The JavaScript typeof operator. -/
def typeofJs : JsValue → JStr
  | .nullV => jstr "object"
  | .undefinedV => jstr "undefined"
  | .boolV _ => jstr "boolean"
  | .numV _ => jstr "number"
  | .strV _ => jstr "string"
  | .objV _ => jstr "object"
  | .arrV _ => jstr "object"

/-- Property access on a JavaScript value: absent properties read as
undefined, as in the destructuring the source uses. -/
def getProp (v : JsValue) (key : JStr) : JsValue :=
  match v with
  | .objV fields =>
    match fields.lookup key with
    | some w => w
    | none => .undefinedV
  | _ => .undefinedV

/-! ### parseRequestBody (src/worker/validation/request.ts) -/

/-- Transcription of parseRequestBody: reject non-object bodies with
INVALID_REQUEST_BODY, then reject an absent / non-string / blank url with
MISSING_URL, else return the url string. -/
def parseRequestBody (body : JsValue) : Except AppError JStr :=
  if !truthy body || !(typeofJs body == jstr "object") then
    .error { type := .INVALID_REQUEST_BODY, message := jstr "Invalid request body" }
  else
    let targetUrl := getProp body (jstr "url")
    if !truthy targetUrl || !(typeofJs targetUrl == jstr "string") ||
        (match targetUrl with
         | .strV s => jsTrim s == []
         | _ => false) then
      .error { type := .MISSING_URL, message := jstr "URL is required" }
    else
      match targetUrl with
      | .strV s => .ok s
      | _ => .error { type := .MISSING_URL, message := jstr "URL is required" }

/-! ### normalizeUrl (src/worker/validation/request.ts) -/

/-- Transcription of normalizeUrl, parameterised by the platform URL
parser success predicate (new URL never runs inside the repository).
Rejects blank input, malformed schemes and truncated prefixes, then
prepends https:// when the input does not start with http, and finally
requires the result to parse. -/
def normalizeUrl (parseOk : JStr → Bool) (url : JStr) : Except AppError JStr :=
  if url.isEmpty || jsTrim url == [] then
    .error { type := .INVALID_URL_FORMAT, message := jstr "Invalid URL format" }
  else if jsIncludes url (jstr "://") && !jsStartsWith url (jstr "http://") &&
      !jsStartsWith url (jstr "https://") then
    .error { type := .INVALID_URL_FORMAT, message := jstr "Invalid URL format" }
  else if url == jstr "http:/" || url == jstr "https:/" || jsEndsWith url (jstr "://") then
    .error { type := .INVALID_URL_FORMAT, message := jstr "Invalid URL format" }
  else
    let normalizedUrl := if jsStartsWith url (jstr "http") then url else jstr "https://" ++ url
    if parseOk normalizedUrl then
      .ok normalizedUrl
    else
      .error { type := .INVALID_URL_FORMAT, message := jstr "Invalid URL format" }

/-! ### validateTargetUrl (src/worker/validation/url.ts) -/

/-- The observable pieces of a WHATWG-parsed URL that validateTargetUrl
reads.  For IPv6 hosts, hostname carries the brackets, as the URL class
serialises them. -/
structure ParsedUrl where
  protocol : JStr
  hostname : JStr
  port : JStr
  href : JStr
deriving DecidableEq, Repr

/-- The regex 172 followed by a dot, then 16 to 31, then a dot, anchored at
the start of the hostname. -/
def matches172Private (hostname : JStr) : Bool :=
  match hostname with
  | '1' :: '7' :: '2' :: '.' :: c1 :: c2 :: '.' :: _ =>
    (c1 == '1' && decide ('6' ≤ c2) && decide (c2 ≤ '9')) ||
    (c1 == '2' && decide ('0' ≤ c2) && decide (c2 ≤ '9')) ||
    (c1 == '3' && (c2 == '0' || c2 == '1'))
  | _ => false

/-- The private-range alternation of validateTargetUrl: anchored prefixes
10., 172.16-31., 192.168., 169.254., and the bracketed literal prefix
[fc00: for IPv6. -/
def matchesPrivateRange (hostname : JStr) : Bool :=
  jsStartsWith hostname (jstr "10.") ||
  matches172Private hostname ||
  jsStartsWith hostname (jstr "192.168.") ||
  jsStartsWith hostname (jstr "169.254.") ||
  jsStartsWith hostname (jstr "[fc00:")

/-- Transcription of validateTargetUrl, parameterised by the platform URL
parser: scheme allow-list, localhost/loopback block, private-range block,
then the port allow-list. -/
def validateTargetUrl (parseUrl : JStr → Option ParsedUrl) (url : JStr) :
    Except AppError ParsedUrl :=
  match parseUrl url with
  | none => .error { type := .INVALID_URL_FORMAT, message := jstr "Invalid URL format" }
  | some parsedUrl =>
    if !(parsedUrl.protocol == jstr "http:" || parsedUrl.protocol == jstr "https:") then
      .error { type := .URL_NOT_PERMITTED,
               message := jstr "Only HTTP/HTTPS protocols are supported" }
    else
      let hostname := jsToLower parsedUrl.hostname
      if hostname == jstr "localhost" || jsStartsWith hostname (jstr "127.") ||
          hostname == jstr "::1" || hostname == jstr "[::1]" ||
          hostname == jstr "0:0:0:0:0:0:0:1" ||
          hostname == jstr "0000:0000:0000:0000:0000:0000:0000:0001" then
        .error { type := .URL_NOT_PERMITTED,
                 message := jstr "Access to localhost is not permitted" }
      else if matchesPrivateRange hostname then
        .error { type := .URL_NOT_PERMITTED,
                 message := jstr "Access to private IP addresses is not permitted" }
      else if !parsedUrl.port.isEmpty &&
          !(parsedUrl.port == jstr "80" || parsedUrl.port == jstr "443" ||
            parsedUrl.port == jstr "8080" || parsedUrl.port == jstr "8443") then
        .error { type := .URL_NOT_PERMITTED,
                 message := jstr "Access to this port is not permitted" }
      else
        .ok parsedUrl

/-! ### createErrorResponse (src/worker/http/errors.ts) -/

/-- The JSON body createErrorResponse serialises. -/
structure ErrorResponseBody where
  success : Bool
  error : JStr
  errorId : JStr
deriving DecidableEq, Repr

/-- An HTTP response as far as createErrorResponse determines it. -/
structure HttpResponse where
  status : Nat
  body : ErrorResponseBody
deriving DecidableEq, Repr

/-- The generic user-facing category message of createErrorResponse,
selected by the error discriminant alone. -/
def userMessage (t : ErrorType) : JStr :=
  match t with
  | .INVALID_REQUEST_BODY | .MISSING_URL | .INVALID_URL_FORMAT | .URL_NOT_PERMITTED =>
    jstr "Invalid request. Please check your input and try again."
  | .FETCH_FAILED | .NETWORK_ERROR | .TIMEOUT_ERROR =>
    jstr "Unable to access the requested URL. Please try again later."
  | .PARSING_ERROR =>
    jstr "Unable to analyze the website content. Please try a different URL."

/-- The status-code switch of createErrorResponse.  For FETCH_FAILED the
source tests whether the detail message contains the substring 404. -/
def statusCodeOf (error : AppError) : Nat :=
  match error.type with
  | .INVALID_REQUEST_BODY | .MISSING_URL | .INVALID_URL_FORMAT | .URL_NOT_PERMITTED => 400
  | .TIMEOUT_ERROR => 408
  | .FETCH_FAILED => if jsIncludes error.message (jstr "404") then 404 else 502
  | _ => 500

/-- Transcription of createErrorResponse; the random correlation ID is an
explicit parameter in place of the Math.random call. -/
def createErrorResponse (errorId : JStr) (error : AppError) : HttpResponse :=
  { status := statusCodeOf error,
    body := { success := false, error := userMessage error.type, errorId := errorId } }

/-! ### safeFetch headers (src/worker/net/fetch.ts) -/

/-- The fixed identifying User-Agent value (src/worker/config.ts). -/
def USER_AGENT : JStr := jstr "FeedFinder/1.0"

/-- Assignment of one property into a JavaScript object modelled as an
insertion-ordered association list: an existing key keeps its place and
takes the new value, a new key is appended. -/
def setProp (obj : List (JStr × JStr)) (key value : JStr) : List (JStr × JStr) :=
  if obj.any (fun kv => kv.1 == key) then
    obj.map (fun kv => if kv.1 == key then (kv.1, value) else kv)
  else
    obj ++ [(key, value)]

/-- Object spread: every property of the second object is assigned over
the first, so on a shared key the spread value wins. -/
def objSpread (base overrides : List (JStr × JStr)) : List (JStr × JStr) :=
  overrides.foldl (fun acc kv => setProp acc kv.1 kv.2) base

/-- The headers object safeFetch builds: a User-Agent entry first, then
the caller-supplied options.headers spread over it. -/
def safeFetchHeaders (optionHeaders : List (JStr × JStr)) : List (JStr × JStr) :=
  objSpread [(jstr "User-Agent", USER_AGENT)] optionHeaders

/-- Property read on the headers object. -/
def getHeader (headers : List (JStr × JStr)) (key : JStr) : Option JStr :=
  headers.lookup key

/-! ### HTML feed extraction (src/worker/discovery/html.ts) -/

/-- Default feed title (src/worker/config.ts). -/
def DEFAULT_FEED_TITLE : JStr := jstr "RSS/Atom feed"

/-- Supported feed MIME types (src/worker/config.ts). -/
def SUPPORTED_FEED_TYPES : List JStr :=
  [jstr "application/rss+xml", jstr "application/atom+xml", jstr "application/rdf+xml",
   jstr "text/xml", jstr "application/xml"]

/-- Maximum accepted link-tag length (src/worker/config.ts). -/
def MAX_LINK_TAG_LENGTH : Nat := 1000

/-- A discovered feed. -/
structure FeedResult where
  url : JStr
  title : JStr
  type : JStr
  discoveryMethod : JStr
deriving DecidableEq, Repr

/-- Transcription of extractFeedTypeTitle: rss before atom, RSS default. -/
def extractFeedTypeTitle (type : JStr) : JStr :=
  let lowerType := jsToLower type
  if jsIncludes lowerType (jstr "rss") then jstr "RSS"
  else if jsIncludes lowerType (jstr "atom") then jstr "Atom"
  else jstr "RSS"

/-- Model of s.split at a separator character, as String.prototype.split
with a one-character separator behaves. -/
def splitOnChar (sep : Char) : JStr → List JStr
  | [] => [[]]
  | c :: rest =>
    if c == sep then [] :: splitOnChar sep rest
    else
      match splitOnChar sep rest with
      | [] => [[c]]
      | h :: t => (c :: h) :: t

/-- First index at which a needle occurs inside a string, the model of
String.prototype.indexOf for string needles. -/
def indexOfSubAux : JStr → JStr → Nat → Option Nat
  | s, needle, i =>
    if needle.isPrefixOf s then some i
    else
      match s with
      | [] => none
      | _ :: t => indexOfSubAux t needle (i + 1)

/-- Model of s.indexOf(needle). -/
def indexOfSub (s needle : JStr) : Option Nat := indexOfSubAux s needle 0

/-- Model of s.indexOf(c, start) for a single character. -/
def indexOfCharFrom (s : JStr) (c : Char) (start : Nat) : Option Nat :=
  match (s.drop start).findIdx? (fun x => x == c) with
  | some j => some (start + j)
  | none => none

/-- The index reached after the while loops of extractAttributeValue that
skip spaces and tabs from a given position. -/
def skipSpacesTabs (tag : JStr) (i : Nat) : Nat :=
  i + ((tag.drop i).takeWhile (fun c => c == ' ' || c == '\t')).length

/-- Transcription of extractAttributeValue: locate the attribute name
case-insensitively, skip spaces and tabs, require an equals sign, skip
spaces and tabs, require an opening quote of either kind, and return the
text up to the next occurrence of the same quote. -/
def extractAttributeValue (tag attributeName : JStr) : Option JStr :=
  let lowerTag := jsToLower tag
  let attrNameLower := jsToLower attributeName
  match indexOfSub lowerTag attrNameLower with
  | none => none
  | some attrIndex =>
    let searchIndex := skipSpacesTabs tag (attrIndex + attrNameLower.length)
    if decide (tag.length ≤ searchIndex) || !(tag.getD searchIndex '\x00' == '=') then
      none
    else
      let searchIndex2 := skipSpacesTabs tag (searchIndex + 1)
      let quote := tag.getD searchIndex2 '\x00'
      if !(quote == '"' || quote == '\x27') then none
      else
        let valueContentStart := searchIndex2 + 1
        match indexOfCharFrom tag quote valueContentStart with
        | none => none
        | some valueEnd => some ((tag.take valueEnd).drop valueContentStart)

/-- One attempt of the rel attribute regex at the head of the string: the
literal rel=, an opening quote of either kind, one or more characters that
are not quotes, then a closing quote of either kind. -/
def relMatchAt (s : JStr) : Option JStr :=
  match s with
  | 'r' :: 'e' :: 'l' :: '=' :: q :: rest =>
    if q == '"' || q == '\x27' then
      let content := rest.takeWhile (fun c => !(c == '"' || c == '\x27'))
      if content.isEmpty then none
      else
        match rest.drop content.length with
        | q2 :: _ => if q2 == '"' || q2 == '\x27' then some content else none
        | [] => none
    else none
  | _ => none

/-- First match of the rel attribute regex anywhere in the string. -/
def findRelMatch : JStr → Option JStr
  | [] => none
  | c :: t =>
    match relMatchAt (c :: t) with
    | some m => some m
    | none => findRelMatch t

/-- Transcription of isAlternateFeedLink: the rel value, split on
whitespace runs, must contain the word alternate. -/
def isAlternateFeedLink (linkTag : JStr) : Bool :=
  match findRelMatch (jsToLower linkTag) with
  | none => false
  | some relValues => (splitWs relValues).contains (jstr "alternate")

/-- The attribute triple extractFeedInfo returns. -/
structure FeedInfo where
  type : Option JStr
  href : Option JStr
  title : Option JStr
deriving DecidableEq, Repr

/-- Transcription of extractFeedInfo: the first supported MIME type whose
quoted attribute prefix occurs in the lowercased tag, plus the href and
title attributes. -/
def extractFeedInfo (linkTag : JStr) (feedTypes : List JStr) : FeedInfo :=
  let lowerTag := jsToLower linkTag
  let feedType := feedTypes.find? (fun type =>
    jsIncludes lowerTag (jstr "type=\"" ++ type) ||
    jsIncludes lowerTag (jstr "type=\x27" ++ type))
  { type := feedType,
    href := extractAttributeValue linkTag (jstr "href"),
    title := extractAttributeValue linkTag (jstr "title") }

/-- Transcription of parseLinkSection: bound the tag at the first closing
angle bracket, re-attach the link prefix, and run the alternate, type and
href checks; href resolution failures skip the candidate. -/
def parseLinkSection (resolve : JStr → Option JStr) (sect : JStr) (feedTypes : List JStr) :
    Option FeedResult :=
  match indexOfCharFrom sect '>' 0 with
  | none => none
  | some endIndex =>
    if endIndex > MAX_LINK_TAG_LENGTH then none
    else
      let linkTag := jstr "<link" ++ sect.take (endIndex + 1)
      if !isAlternateFeedLink linkTag then none
      else
        let feedInfo := extractFeedInfo linkTag feedTypes
        match feedInfo.type, feedInfo.href with
        | some ftype, some href =>
          if href.isEmpty then none
          else
            match resolve href with
            | none => none
            | some url =>
              some { url := url,
                     title := match feedInfo.title with
                       | some t => if t.isEmpty then DEFAULT_FEED_TITLE else t
                       | none => DEFAULT_FEED_TITLE,
                     type := if jsIncludes ftype (jstr "atom") then jstr "Atom" else jstr "RSS",
                     discoveryMethod := jstr "meta-tag" }
        | _, _ => none

/-- Model of html.split on the case-insensitive literal link-tag opener:
at each match the five matched characters are removed and a cut is made. -/
def splitLinkAux : JStr → JStr → List JStr
  | [], acc => [acc.reverse]
  | c1 :: rest, acc =>
    if (jstr "<link").isPrefixOf (jsToLower (c1 :: rest)) then
      match rest with
      | _ :: _ :: _ :: _ :: rest2 => acc.reverse :: splitLinkAux rest2 []
      | _ => acc.reverse :: [[]]
    else
      splitLinkAux rest (c1 :: acc)

/-- The processLinkSections loop: every section after the first is parsed,
and results are deduplicated by resolved URL, first occurrence kept. -/
def processSectionsAux (resolve : JStr → Option JStr) :
    List JStr → List JStr → List FeedResult
  | [], _ => []
  | sect :: rest, foundUrls =>
    match parseLinkSection resolve sect SUPPORTED_FEED_TYPES with
    | some feed =>
      if foundUrls.contains feed.url then processSectionsAux resolve rest foundUrls
      else feed :: processSectionsAux resolve rest (feed.url :: foundUrls)
    | none => processSectionsAux resolve rest foundUrls

/-- Transcription of findMetaFeedsWithStringParsing. -/
def findMetaFeedsWithStringParsing (resolve : JStr → Option JStr) (html : JStr) :
    List FeedResult :=
  let linkSections := splitLinkAux html []
  processSectionsAux resolve (linkSections.drop 1) []

/-- The attributes of one DOM link element, as getAttribute reads them. -/
structure LinkAttrs where
  rel : Option JStr
  type : Option JStr
  href : Option JStr
  title : Option JStr
deriving DecidableEq, Repr

/-- The loop body of the primary findMetaFeeds path for one link element:
rel split on whitespace must contain alternate case-insensitively, type
and href must be non-empty, the parameter-stripped lowercased type must be
supported, and the href must resolve. -/
def processLinkElement (resolve : JStr → Option JStr) (link : LinkAttrs) :
    Option FeedResult :=
  let qualifies :=
    (match link.rel with
     | some rel => (splitWs rel).any (fun t => jsToLower t == jstr "alternate")
     | none => false) &&
    (match link.type with | some t => !t.isEmpty | none => false) &&
    (match link.href with | some h => !h.isEmpty | none => false) &&
    (match link.type with
     | some t => SUPPORTED_FEED_TYPES.contains
         (jsTrim ((splitOnChar ';' (jsToLower t)).headD []))
     | none => false)
  if qualifies then
    match link.href, link.type with
    | some href, some ty =>
      match resolve href with
      | some feedUrl =>
        some { title := match link.title with
                 | some t => if t.isEmpty then DEFAULT_FEED_TITLE else t
                 | none => DEFAULT_FEED_TITLE,
               url := feedUrl,
               type := extractFeedTypeTitle ty,
               discoveryMethod := jstr "meta-tag" }
      | none => none
    | _, _ => none
  else none

/-- The primary findMetaFeeds path over the link elements the DOM parser
returns: each qualifying element is appended, with no deduplication. -/
def findMetaFeedsDom (resolve : JStr → Option JStr) (links : List LinkAttrs) :
    List FeedResult :=
  links.filterMap (processLinkElement resolve)

/-- Transcription of findMetaFeeds, parameterised by the external DOM
parser: none models a parse that throws, which selects the string-parsing
fallback. -/
def findMetaFeeds (domParse : JStr → Option (List LinkAttrs))
    (resolve : JStr → Option JStr) (html : JStr) : List FeedResult :=
  match domParse html with
  | some links => findMetaFeedsDom resolve links
  | none => findMetaFeedsWithStringParsing resolve html

/-! ### tryCommonPaths (src/worker/discovery/commonPaths.ts) -/

/-- Root-level candidate paths. -/
def rootPaths : List JStr :=
  [jstr "/feed", jstr "/feeds", jstr "/rss", jstr "/rss.xml", jstr "/feed.xml",
   jstr "/atom.xml", jstr "/index.xml"]

/-- Path-relative candidate paths. -/
def relativePaths : List JStr :=
  [jstr "feed/", jstr "feeds/", jstr "rss/", jstr "feed.xml", jstr "rss.xml",
   jstr "atom.xml", jstr "index.xml"]

/-- The full candidate list, root paths first. -/
def commonPaths : List JStr := rootPaths ++ relativePaths

/-- Outcome of one HEAD request issued through safeFetch: a failure of any
kind, or a response together with its optional content-type header. -/
inductive HeadOutcome
  | failure (e : AppError)
  | success (contentType : Option JStr)

/-- The platform pieces the prober calls out to: relative URL resolution,
URL parsing for re-validation, and the network itself. -/
structure ProbeEnv where
  resolve : JStr → JStr → Option JStr
  parseUrl : JStr → Option ParsedUrl
  head : JStr → HeadOutcome

/-- The content-type prefix alternation of the probe success test. -/
def isFeedContentType (ct : JStr) : Bool :=
  jsStartsWith ct (jstr "application/rss+xml") ||
  jsStartsWith ct (jstr "application/atom+xml") ||
  jsStartsWith ct (jstr "application/rdf+xml") ||
  jsStartsWith ct (jstr "text/xml") ||
  jsStartsWith ct (jstr "application/xml")

/-- The candidate construction of tryCommonPaths: resolve each common path
against the base, drop resolution failures, re-validate through
validateTargetUrl, and keep the path together with the validated href. -/
def validFeedUrls (env : ProbeEnv) (baseUrl : JStr) : List (JStr × JStr) :=
  commonPaths.filterMap (fun path =>
    match env.resolve baseUrl path with
    | none => none
    | some feedUrl =>
      match validateTargetUrl env.parseUrl feedUrl with
      | .ok validated => some (path, validated.href)
      | .error _ => none)

/-- One probe: the HEAD request mapped over the content-type test, then
orElse converting every error into a null result. -/
def probeCandidate (env : ProbeEnv) (pu : JStr × JStr) :
    Except AppError (Option FeedResult) :=
  let fetched : Except AppError (Option FeedResult) :=
    match env.head pu.2 with
    | .failure e => .error e
    | .success ct =>
      let contentType := ct.getD []
      if isFeedContentType (jsToLower contentType) then
        .ok (some { url := pu.2,
                    title := pu.1 ++ jstr " feed",
                    type := if jsIncludes contentType (jstr "atom") then jstr "Atom"
                            else jstr "RSS",
                    discoveryMethod := jstr "common-path" })
      else .ok none
  match fetched with
  | .error _ => .ok none
  | .ok v => .ok v

/-- Model of ResultAsync.combine: all results, or the first error. -/
def combineAll {α : Type} : List (Except AppError α) → Except AppError (List α)
  | [] => .ok []
  | r :: rest =>
    match r with
    | .error e => .error e
    | .ok v =>
      match combineAll rest with
      | .error e => .error e
      | .ok vs => .ok (v :: vs)

/-- Transcription of tryCommonPaths: probe every valid candidate, combine,
and keep the non-null results. -/
def tryCommonPaths (env : ProbeEnv) (baseUrl : JStr) :
    Except AppError (List FeedResult) :=
  match combineAll ((validFeedUrls env baseUrl).map (probeCandidate env)) with
  | .error e => .error e
  | .ok results => .ok (results.filterMap id)

/-- An outbound request: method and target URL. -/
structure Request where
  method : JStr
  url : JStr
deriving DecidableEq, Repr

/-- The requests one run of tryCommonPaths issues: exactly one HEAD per
valid candidate, all created before any is awaited. -/
def tryCommonPathsRequests (env : ProbeEnv) (baseUrl : JStr) : List Request :=
  (validFeedUrls env baseUrl).map (fun pu => { method := jstr "HEAD", url := pu.2 })

/-! ### discoverFeeds (src/worker/discovery/index.ts) -/

/-- Outcome of the page fetch of the HTML branch: a safeFetch failure, a
body-decoding failure, or the page text. -/
inductive FetchPageOutcome
  | fetchFailure (e : AppError)
  | textFailure
  | page (html : JStr)

/-- The platform pieces discoverFeeds calls out to, extending the probe
environment with the page fetch and the DOM parser. -/
structure DiscoveryEnv extends ProbeEnv where
  fetchPage : JStr → FetchPageOutcome
  domParse : JStr → Option (List LinkAttrs)

/-- The HTML branch: safeFetch the page, map a text failure to
PARSING_ERROR, and run findMetaFeeds over the body. -/
def htmlBranch (env : DiscoveryEnv) (href : JStr) : Except AppError (List FeedResult) :=
  match env.fetchPage href with
  | .fetchFailure e => .error e
  | .textFailure => .error { type := .PARSING_ERROR, message := jstr "Failed to parse response body" }
  | .page html => .ok (findMetaFeeds env.domParse (env.resolve href) html)

/-- The dedup loop of the merge step: a shared found-URLs set over the
meta results followed by the common-path results, first occurrence kept. -/
def mergeDedupAux : List FeedResult → List JStr → List FeedResult
  | [], _ => []
  | feed :: rest, foundUrls =>
    if foundUrls.contains feed.url then mergeDedupAux rest foundUrls
    else feed :: mergeDedupAux rest (feed.url :: foundUrls)

/-- The merge of the two branches. -/
def mergeDedup (metaFeeds commonFeeds : List FeedResult) : List FeedResult :=
  mergeDedupAux (metaFeeds ++ commonFeeds) []

/-- The combine of the two branches, then the merge: the first error in
branch order wins, the HTML branch being listed first. -/
def combinedBranches (env : DiscoveryEnv) (href : JStr) :
    Except AppError (List FeedResult) :=
  match htmlBranch env href, tryCommonPaths env.toProbeEnv href with
  | .ok metaFeeds, .ok commonFeeds => .ok (mergeDedup metaFeeds commonFeeds)
  | .error e, _ => .error e
  | _, .error e => .error e

/-- Transcription of discoverFeeds: validate, run the two branches, merge,
and on a combine failure fall back to a fresh tryCommonPaths run. -/
def discoverFeeds (env : DiscoveryEnv) (targetUrl : JStr) :
    Except AppError (List FeedResult) :=
  match validateTargetUrl env.parseUrl targetUrl with
  | .error validationError =>
    .error { type := .FETCH_FAILED, message := validationError.message }
  | .ok validatedUrl =>
    match combinedBranches env validatedUrl.href with
    | .ok feeds => .ok feeds
    | .error _ => tryCommonPaths env.toProbeEnv validatedUrl.href

/-- The requests one run of discoverFeeds issues: nothing when validation
fails; otherwise one GET of the page, the probe HEADs, and, when the
combine fails, the probe HEADs of the fallback run once more. -/
def discoverFeedsRequests (env : DiscoveryEnv) (targetUrl : JStr) : List Request :=
  match validateTargetUrl env.parseUrl targetUrl with
  | .error _ => []
  | .ok validatedUrl =>
    { method := jstr "GET", url := validatedUrl.href } ::
      (tryCommonPathsRequests env.toProbeEnv validatedUrl.href ++
        match combinedBranches env validatedUrl.href with
        | .ok _ => []
        | .error _ => tryCommonPathsRequests env.toProbeEnv validatedUrl.href)

/-! ### Concrete oracle instances used by closed theorems -/

/-- Platform URL parse of the concrete IPv6 unique-local URL
http://[fd00::1]/, as the WHATWG parser serialises it: bracketed
hostname, empty port. -/
def parseFd00 : JStr → Option ParsedUrl := fun u =>
  if u == jstr "http://[fd00::1]/" then
    some { protocol := jstr "http:", hostname := jstr "[fd00::1]", port := [],
           href := jstr "http://[fd00::1]/" }
  else none

/-- Resolution oracle that knows the one href used by the concrete
extractor theorems. -/
def resolveFeedXml : JStr → Option JStr := fun h =>
  if h == jstr "/feed.xml" then some (jstr "https://example.com/feed.xml") else none

/-- Platform URL parse oracle knowing the base and the one candidate of
the concrete discovery scenarios. -/
def parseExample : JStr → Option ParsedUrl := fun u =>
  if u == jstr "https://example.com" then
    some { protocol := jstr "https:", hostname := jstr "example.com", port := [],
           href := jstr "https://example.com/" }
  else if u == jstr "https://example.com/feed.xml" then
    some { protocol := jstr "https:", hostname := jstr "example.com", port := [],
           href := jstr "https://example.com/feed.xml" }
  else none

/-- Resolution oracle under which only the root-absolute feed.xml
candidate resolves. -/
def resolveExample : JStr → JStr → Option JStr := fun base path =>
  if base == jstr "https://example.com/" && path == jstr "/feed.xml" then
    some (jstr "https://example.com/feed.xml")
  else none

/-- Resolution oracle under which the root-absolute and the path-relative
feed.xml candidates resolve to the same absolute URL, as they do for a
base whose path is the root. -/
def resolveExampleRoot : JStr → JStr → Option JStr := fun base path =>
  if base == jstr "https://example.com/" &&
      (path == jstr "/feed.xml" || path == jstr "feed.xml") then
    some (jstr "https://example.com/feed.xml")
  else none

/-- Discovery environment in which validation passes, the page fetch
fails with a network error, and every probe fails. -/
def envFail : DiscoveryEnv :=
  { resolve := resolveExample, parseUrl := parseExample,
    head := fun _ => .failure { type := .NETWORK_ERROR, message := jstr "Network error: refused" },
    fetchPage := fun _ =>
      .fetchFailure { type := .NETWORK_ERROR, message := jstr "Network error: refused" },
    domParse := fun _ => some [] }

/-- Probe environment in which the duplicated feed.xml candidates both
validate and their HEAD probe answers with an RSS content-type. -/
def probeEnvRoot : ProbeEnv :=
  { resolve := resolveExampleRoot, parseUrl := parseExample,
    head := fun _ => .success (some (jstr "application/rss+xml")) }

/-- A qualifying feed link element, used twice to exercise duplication. -/
def dupLink : LinkAttrs :=
  { rel := some (jstr "alternate"), type := some (jstr "application/rss+xml"),
    href := some (jstr "/feed.xml"), title := some (jstr "RSS Feed") }

/-- The result the extractor emits for dupLink. -/
def dupFeed : FeedResult :=
  { url := jstr "https://example.com/feed.xml", title := jstr "RSS Feed",
    type := jstr "RSS", discoveryMethod := jstr "meta-tag" }

/-- HTML carrying the same qualifying link tag twice. -/
def htmlDup : JStr :=
  jstr "<html><link rel=\"alternate\" type=\"application/rss+xml\" href=\"/feed.xml\" title=\"RSS Feed\"><link rel=\"alternate\" type=\"application/rss+xml\" href=\"/feed.xml\" title=\"RSS Feed\"></html>"

end FeedFinder

namespace FeedFinder

/-! ### Helper lemmas -/

theorem lookup_map_update (obj : List (JStr × JStr)) (key v w : JStr)
    (h : obj.lookup key = some w) :
    (obj.map (fun kv => if kv.1 == key then (kv.1, v) else kv)).lookup key = some v := by
  induction obj with
  | nil => simp [List.lookup] at h
  | cons kv t ih =>
    obtain ⟨k0, v0⟩ := kv
    simp only [List.map_cons]
    by_cases hk : key = k0
    · have hkt : (k0 == key) = true := beq_iff_eq.mpr hk.symm
      have hkt2 : (key == k0) = true := beq_iff_eq.mpr hk
      rw [if_pos hkt]
      simp [List.lookup, hkt2]
    · have hkf : (k0 == key) = false := beq_eq_false_iff_ne.mpr (fun e => hk e.symm)
      have hkf2 : (key == k0) = false := beq_eq_false_iff_ne.mpr hk
      rw [if_neg (by simp [hkf])]
      simp only [List.lookup, hkf2] at h ⊢
      exact ih h

theorem any_key_of_lookup (obj : List (JStr × JStr)) (key w : JStr)
    (h : obj.lookup key = some w) : obj.any (fun kv => kv.1 == key) = true := by
  induction obj with
  | nil => simp [List.lookup] at h
  | cons kv t ih =>
    obtain ⟨k0, v0⟩ := kv
    by_cases hk : key = k0
    · simp [List.any_cons, beq_iff_eq.mpr hk.symm]
    · have hkf2 : (key == k0) = false := beq_eq_false_iff_ne.mpr hk
      simp only [List.lookup, hkf2] at h
      simp [List.any_cons, ih h]

theorem lookup_setProp_self (obj : List (JStr × JStr)) (key v w : JStr)
    (h : obj.lookup key = some w) : (setProp obj key v).lookup key = some v := by
  unfold setProp
  rw [if_pos (any_key_of_lookup obj key w h)]
  exact lookup_map_update obj key v w h

theorem lookup_append_pairs (l1 l2 : List (JStr × JStr)) (key : JStr) :
    (l1 ++ l2).lookup key =
      match l1.lookup key with
      | some v => some v
      | none => l2.lookup key := by
  induction l1 with
  | nil => simp [List.lookup]
  | cons kv t ih =>
    obtain ⟨k0, v0⟩ := kv
    by_cases hk : key = k0
    · simp [List.lookup, beq_iff_eq.mpr hk]
    · have hkf2 : (key == k0) = false := beq_eq_false_iff_ne.mpr hk
      simp [List.lookup, hkf2, ih]

theorem lookup_setProp_other (obj : List (JStr × JStr)) (k v key : JStr)
    (hne : (key == k) = false) :
    (setProp obj k v).lookup key = obj.lookup key := by
  unfold setProp
  by_cases hany : obj.any (fun kv => kv.1 == k)
  · rw [if_pos hany]
    clear hany
    induction obj with
    | nil => simp
    | cons kv t ih =>
      obtain ⟨k0, v0⟩ := kv
      simp only [List.map_cons]
      by_cases hk : key = k0
      · have hk0 : (k0 == k) = false := by
          cases h0 : (k0 == k) with
          | false => rfl
          | true =>
            exfalso
            have hkeq : key = k := hk.trans (beq_iff_eq.mp h0)
            rw [beq_iff_eq.mpr hkeq] at hne
            exact absurd hne (by simp)
        rw [if_neg (by simp [hk0])]
        simp [List.lookup, beq_iff_eq.mpr hk]
      · have hkf2 : (key == k0) = false := beq_eq_false_iff_ne.mpr hk
        by_cases hk2 : k0 = k
        · rw [if_pos (beq_iff_eq.mpr hk2)]
          simp only [List.lookup, hkf2]
          exact ih
        · rw [if_neg (by simp [beq_eq_false_iff_ne.mpr hk2])]
          simp only [List.lookup, hkf2]
          exact ih
  · rw [if_neg hany]
    rw [lookup_append_pairs]
    cases hl : obj.lookup key with
    | some v2 => rfl
    | none => simp [List.lookup, hne]

theorem lookup_objSpread (key : JStr) (ov : List (JStr × JStr)) :
    ∀ (obj : List (JStr × JStr)) (w : JStr), obj.lookup key = some w →
      (objSpread obj ov).lookup key = some ((ov.reverse.lookup key).getD w) := by
  induction ov with
  | nil => intro obj w h; simpa [objSpread] using h
  | cons kv rest ih =>
    intro obj w h
    have hspread : objSpread obj (kv :: rest) = objSpread (setProp obj kv.1 kv.2) rest := rfl
    rw [hspread]
    by_cases hk : key == kv.1
    · have h2 : (setProp obj kv.1 kv.2).lookup key = some kv.2 := by
        rw [beq_iff_eq.mp hk] at h ⊢
        exact lookup_setProp_self obj kv.1 kv.2 w h
      rw [ih _ kv.2 h2]
      rw [List.reverse_cons, lookup_append_pairs]
      cases hrest : rest.reverse.lookup key with
      | some v2 => rfl
      | none => simp [List.lookup, hk]
    · have h2 : (setProp obj kv.1 kv.2).lookup key = some w := by
        rw [lookup_setProp_other obj kv.1 kv.2 key (by simpa using hk)]
        exact h
      rw [ih _ w h2]
      rw [List.reverse_cons, lookup_append_pairs]
      cases hrest : rest.reverse.lookup key with
      | some v2 => rfl
      | none => simp [List.lookup, hk]

theorem isPrefixOf_self (n : JStr) : n.isPrefixOf n = true := by
  induction n with
  | nil => rfl
  | cons c t ih => simp [List.isPrefixOf, ih]

theorem isPrefixOf_of_append_isPrefixOf (p q x : JStr)
    (h : (p ++ q).isPrefixOf x = true) : p.isPrefixOf x = true := by
  induction p generalizing x with
  | nil => simp [List.isPrefixOf]
  | cons c t ih =>
    cases x with
    | nil => simp [List.isPrefixOf] at h
    | cons d ds =>
      simp only [List.cons_append, List.isPrefixOf, Bool.and_eq_true] at h ⊢
      exact ⟨h.1, ih ds h.2⟩

theorem jsStartsWith_append (p r : JStr) : jsStartsWith (p ++ r) p = true := by
  unfold jsStartsWith
  induction p with
  | nil => simp [List.isPrefixOf]
  | cons c t ih => simp [List.isPrefixOf, ih]

theorem jsIncludes_append_self (p n : JStr) : jsIncludes (p ++ n) n = true := by
  induction p with
  | nil =>
    unfold jsIncludes
    rw [List.nil_append, isPrefixOf_self]
    simp
  | cons c t ih =>
    unfold jsIncludes
    rw [List.cons_append]
    simp [ih]

theorem jsTrim_cons_not_ws (c : Char) (t : JStr) (hc : isWs c = false) :
    jsTrim (c :: t) ≠ [] := by
  unfold jsTrim
  rw [List.dropWhile_cons, hc]
  simp only [Bool.false_eq_true, if_false]
  intro hcontra
  rw [List.reverse_eq_nil_iff, List.dropWhile_eq_nil_iff] at hcontra
  exact absurd (hcontra c (by simp)) (by simp [hc])

theorem length_append_https (x : JStr) : (jstr "https://" ++ x).length = 8 + x.length := by
  rw [List.length_append]
  rfl

theorem endsWith_https_append (x : JStr) (hne : x ≠ [])
    (h : jsEndsWith (jstr "https://" ++ x) (jstr "://") = true) :
    jsIncludes x (jstr "://") = true := by
  unfold jsEndsWith at h
  rw [show List.isSuffixOf (jstr "://") (jstr "https://" ++ x) =
      List.isPrefixOf ['/', '/', ':'] ((jstr "https://" ++ x).reverse) from rfl] at h
  rw [List.reverse_append] at h
  rw [show (jstr "https://").reverse = jstr "//:sptth" from rfl] at h
  obtain ⟨a, as, hrev⟩ : ∃ a as, x.reverse = a :: as := by
    cases hx : x.reverse with
    | nil =>
      exact absurd (by simpa using congrArg List.reverse hx) hne
    | cons a as => exact ⟨a, as, rfl⟩
  rw [hrev] at h
  cases as with
  | nil =>
    exfalso
    simp [List.isPrefixOf] at h
  | cons b bs =>
    cases bs with
    | nil =>
      exfalso
      simp [List.isPrefixOf] at h
    | cons c cs =>
      simp only [List.cons_append, List.isPrefixOf, Bool.and_eq_true, beq_iff_eq] at h
      obtain ⟨ha, hb, hcc, _⟩ := h
      have hxx : x = (a :: b :: c :: cs).reverse := by
        rw [← hrev, List.reverse_reverse]
      have hx2 : x = cs.reverse ++ jstr "://" := by
        rw [hxx, ← ha, ← hb, ← hcc, show jstr "://" = [':', '/', '/'] from rfl]
        simp
      rw [hx2]
      exact jsIncludes_append_self cs.reverse (jstr "://")

/-! ### Claim theorems -/

/-- C1: the validator is claimed to reject every hostname in fc00::/7,
fd00::/8 included, with URL_NOT_PERMITTED.  The code tests only the
literal prefix [fc00: of the bracketed hostname, so the unique-local host
fd00::1 — inside fc00::/7 — is accepted: validateTargetUrl returns ok on
http://[fd00::1]/ with a valid scheme and default port. -/
theorem validateTargetUrl_fd00_unique_local_permitted :
    validateTargetUrl parseFd00 (jstr "http://[fd00::1]/") =
      .ok { protocol := jstr "http:", hostname := jstr "[fd00::1]", port := [],
            href := jstr "http://[fd00::1]/" } := by rfl

/-- C4 counterexample: createErrorResponse decides the FETCH_FAILED status
by searching the detail message for the substring 404, not by the carried
numeric status: an error whose status is 500 but whose message mentions
404 is answered with HTTP 404, where the claim demands 502. -/
theorem createErrorResponse_404_by_message_not_status :
    (createErrorResponse (jstr "abc123def")
        { type := .FETCH_FAILED, message := jstr "HTTP 500 after 404 redirect",
          status := some 500 }).status = 404 ∧
    ({ type := .FETCH_FAILED, message := jstr "HTTP 500 after 404 redirect",
       status := some 500 } : AppError).status ≠ some 404 := by
  exact ⟨rfl, by decide⟩

/-- C4 amended: the status is 400 for the four validation types, 408 for
timeouts, 500 for network and parsing errors, and for FETCH_FAILED it is
404 exactly when the detail message contains the substring 404 (502
otherwise); the error field of the body is the fixed generic category message
determined solely by the error type. -/
theorem createErrorResponse_status_table_and_generic_body (err : AppError) (eid : JStr) :
    ((createErrorResponse eid err).status =
      match err.type with
      | .INVALID_REQUEST_BODY => 400
      | .MISSING_URL => 400
      | .INVALID_URL_FORMAT => 400
      | .URL_NOT_PERMITTED => 400
      | .TIMEOUT_ERROR => 408
      | .NETWORK_ERROR => 500
      | .PARSING_ERROR => 500
      | .FETCH_FAILED => if jsIncludes err.message (jstr "404") then 404 else 502) ∧
    (createErrorResponse eid err).body.error = userMessage err.type ∧
    (∀ (err2 : AppError) (eid2 : JStr), err.type = err2.type →
      (createErrorResponse eid err).body.error = (createErrorResponse eid2 err2).body.error) := by
  refine ⟨?_, rfl, ?_⟩
  · cases h : err.type <;> simp [createErrorResponse, statusCodeOf, h]
  · intro err2 eid2 ht
    simp [createErrorResponse, ht]

/-- C4 witness: the amended theorem applied at a network error and two
FETCH_FAILED errors sharing a type. -/
theorem createErrorResponse_status_table_witness :
    (createErrorResponse (jstr "w1")
        { type := .NETWORK_ERROR, message := jstr "Connection failed" }).status = 500 ∧
    (createErrorResponse (jstr "w1")
        { type := .FETCH_FAILED, message := jstr "HTTP 502" }).body.error =
      (createErrorResponse (jstr "w2")
        { type := .FETCH_FAILED, message := jstr "HTTP 404", status := some 404 }).body.error := by
  exact ⟨(createErrorResponse_status_table_and_generic_body
            { type := .NETWORK_ERROR, message := jstr "Connection failed" } (jstr "w1")).1,
         (createErrorResponse_status_table_and_generic_body
            { type := .FETCH_FAILED, message := jstr "HTTP 502" } (jstr "w1")).2.2
            { type := .FETCH_FAILED, message := jstr "HTTP 404", status := some 404 }
            (jstr "w2") rfl⟩

/-- C5 counterexample: the headers object spreads the caller headers after
the fixed User-Agent entry, so a caller-supplied User-Agent wins: the
header sent is Evil/1.0, not the fixed product identifier. -/
theorem safeFetchHeaders_user_agent_overridden :
    getHeader (safeFetchHeaders [(jstr "User-Agent", jstr "Evil/1.0")]) (jstr "User-Agent") =
      some (jstr "Evil/1.0") ∧
    getHeader (safeFetchHeaders [(jstr "User-Agent", jstr "Evil/1.0")]) (jstr "User-Agent") ≠
      some USER_AGENT := by
  exact ⟨rfl, by decide⟩

/-- C5 amended: the fixed User-Agent is installed first and caller headers
are spread over it, so the User-Agent actually sent is the last
caller-supplied User-Agent value when one exists, and the fixed product
identifier otherwise. -/
theorem safeFetchHeaders_user_agent_last_wins (optionHeaders : List (JStr × JStr)) :
    getHeader (safeFetchHeaders optionHeaders) (jstr "User-Agent") =
      some ((optionHeaders.reverse.lookup (jstr "User-Agent")).getD USER_AGENT) := by
  unfold safeFetchHeaders getHeader
  exact lookup_objSpread (jstr "User-Agent") optionHeaders
    [(jstr "User-Agent", USER_AGENT)] USER_AGENT (by simp [List.lookup])

theorem extractFeedTypeTitle_atom_iff (ty : JStr) :
    (extractFeedTypeTitle ty = jstr "Atom") ↔
      (jsIncludes (jsToLower ty) (jstr "atom") = true ∧
       jsIncludes (jsToLower ty) (jstr "rss") = false) := by
  unfold extractFeedTypeTitle
  by_cases h1 : jsIncludes (jsToLower ty) (jstr "rss") = true
  · rw [if_pos h1]
    constructor
    · intro he; exact absurd he (by decide)
    · rintro ⟨_, h2⟩; rw [h1] at h2; exact absurd h2 (by decide)
  · have h1f : jsIncludes (jsToLower ty) (jstr "rss") = false := by
      cases h0 : jsIncludes (jsToLower ty) (jstr "rss") with
      | false => rfl
      | true => exact absurd h0 h1
    rw [if_neg (by simp [h1f])]
    by_cases h2 : jsIncludes (jsToLower ty) (jstr "atom") = true
    · rw [if_pos h2]
      simp [h1f, h2]
    · have h2f : jsIncludes (jsToLower ty) (jstr "atom") = false := by
        cases h0 : jsIncludes (jsToLower ty) (jstr "atom") with
        | false => rfl
        | true => exact absurd h0 h2
      rw [if_neg (by simp [h2f])]
      constructor
      · intro he; exact absurd he (by decide)
      · rintro ⟨ha, _⟩; rw [h2f] at ha; exact absurd ha (by simp)

/-- C6 counterexample: a qualifying link whose type attribute contains
both rss and atom is emitted with type RSS, because extractFeedTypeTitle
tests rss first — where the claim demands Atom for any type containing
atom. -/
theorem processLinkElement_rss_and_atom_gives_rss :
    processLinkElement resolveFeedXml
      { rel := some (jstr "alternate"), type := some (jstr "application/rss+xml; atom"),
        href := some (jstr "/feed.xml"), title := some (jstr "Both") } =
      some { url := jstr "https://example.com/feed.xml", title := jstr "Both",
             type := jstr "RSS", discoveryMethod := jstr "meta-tag" } ∧
    jsIncludes (jsToLower (jstr "application/rss+xml; atom")) (jstr "atom") = true := by
  exact ⟨by decide, by decide⟩

/-- C6 amended: every feed candidate the primary extractor accepts gets
its type from extractFeedTypeTitle applied to the full type attribute:
RSS whenever the lowercased value contains rss (rss is checked first),
otherwise Atom when it contains atom, otherwise the RSS default — so
the type is Atom iff the value contains atom and does not contain rss. -/
theorem processLinkElement_type_from_extractFeedTypeTitle
    (resolve : JStr → Option JStr) (link : LinkAttrs) (r : FeedResult) (ty : JStr)
    (hty : link.type = some ty) (h : processLinkElement resolve link = some r) :
    r.type = extractFeedTypeTitle ty ∧
    ((r.type = jstr "Atom") ↔
      (jsIncludes (jsToLower ty) (jstr "atom") = true ∧
       jsIncludes (jsToLower ty) (jstr "rss") = false)) := by
  have htype : r.type = extractFeedTypeTitle ty := by
    obtain ⟨relO, tyO, hrefO, titleO⟩ := link
    have hty2 : tyO = some ty := hty
    subst hty2
    cases hrefO with
    | none => simp [processLinkElement] at h
    | some href =>
      cases relO with
      | none => simp [processLinkElement] at h
      | some rel =>
        simp only [processLinkElement] at h
        split at h
        · cases hres : resolve href with
          | none => rw [hres] at h; simp at h
          | some feedUrl =>
            rw [hres] at h
            simp only [Option.some.injEq] at h
            rw [← h]
        · simp at h
  exact ⟨htype, htype ▸ extractFeedTypeTitle_atom_iff ty⟩

theorem error_invalid_ne_missing :
    (Except.error { type := .INVALID_REQUEST_BODY, message := jstr "Invalid request body" } :
        Except AppError JStr) ≠
      Except.error { type := .MISSING_URL, message := jstr "URL is required" } := by
  intro h
  injection h with h2
  exact absurd (congrArg AppError.type h2) (by decide)

theorem parseRequestBody_nonobject (body : JsValue)
    (h : (typeofJs body == jstr "object") = false) :
    parseRequestBody body =
      .error { type := .INVALID_REQUEST_BODY, message := jstr "Invalid request body" } := by
  unfold parseRequestBody
  rw [h]
  simp

theorem parseRequestBody_object_eval (fields : List (JStr × JsValue)) :
    parseRequestBody (.objV fields) =
      (match fields.lookup (jstr "url") with
       | some (.strV s) =>
         if s.isEmpty || (jsTrim s == []) then
           .error { type := .MISSING_URL, message := jstr "URL is required" }
         else .ok s
       | _ => .error { type := .MISSING_URL, message := jstr "URL is required" }) := by
  unfold parseRequestBody
  rw [show (!truthy (.objV fields) || !(typeofJs (.objV fields) == jstr "object")) = false
    from rfl]
  simp only [Bool.false_eq_true, if_false]
  have hgp : getProp (.objV fields) (jstr "url") =
      (match fields.lookup (jstr "url") with
       | some w => w
       | none => .undefinedV) := rfl
  rw [hgp]
  cases fields.lookup (jstr "url") with
  | none => rfl
  | some v =>
    cases v with
    | strV s =>
      rw [show (typeofJs (JsValue.strV s) == jstr "string") = true from rfl]
      simp only [truthy, Bool.not_not, Bool.not_true, Bool.false_or, Bool.or_false]
    | nullV => rfl
    | undefinedV => rfl
    | boolV b =>
      rw [show (typeofJs (JsValue.boolV b) == jstr "string") = false from rfl]
      simp [truthy]
    | numV n =>
      rw [show (typeofJs (JsValue.numV n) == jstr "string") = false from rfl]
      simp [truthy]
    | objV f2 =>
      rw [show (typeofJs (JsValue.objV f2) == jstr "string") = false from rfl]
      simp [truthy]
    | arrV e2 =>
      rw [show (typeofJs (JsValue.arrV e2) == jstr "string") = false from rfl]
      simp [truthy]

/-- C10: parseRequestBody answers INVALID_REQUEST_BODY exactly for null
or non-object bodies, and MISSING_URL exactly for non-null object bodies
whose url property is absent, not a string, or a string trimming to empty
— so a whitespace-only url is MISSING_URL, never INVALID_URL_FORMAT. -/
theorem parseRequestBody_error_classification (body : JsValue) :
    (parseRequestBody body =
        .error { type := .INVALID_REQUEST_BODY, message := jstr "Invalid request body" } ↔
      (body = .nullV ∨ ¬ typeofJs body = jstr "object")) ∧
    (parseRequestBody body =
        .error { type := .MISSING_URL, message := jstr "URL is required" } ↔
      (¬ body = .nullV ∧ typeofJs body = jstr "object" ∧
        ∀ s, getProp body (jstr "url") = .strV s → jsTrim s = [])) := by
  cases body with
  | nullV =>
    refine ⟨⟨fun _ => Or.inl rfl, fun _ => by simp [parseRequestBody, truthy]⟩, ?_⟩
    constructor
    · intro h
      rw [show parseRequestBody .nullV =
          .error { type := .INVALID_REQUEST_BODY, message := jstr "Invalid request body" }
        from by simp [parseRequestBody, truthy]] at h
      exact absurd h error_invalid_ne_missing
    · rintro ⟨hnull, _⟩
      exact absurd rfl hnull
  | undefinedV =>
    refine ⟨⟨fun _ => Or.inr (fun h => absurd h (by decide)),
            fun _ => parseRequestBody_nonobject JsValue.undefinedV rfl⟩, ?_⟩
    constructor
    · intro h
      rw [parseRequestBody_nonobject JsValue.undefinedV rfl] at h
      exact absurd h error_invalid_ne_missing
    · rintro ⟨_, hobj, _⟩
      exact absurd hobj (fun h => absurd h (by decide))
  | boolV b =>
    have hobj : ¬ typeofJs (JsValue.boolV b) = jstr "object" :=
      fun h => absurd (show jstr "boolean" = jstr "object" from h) (by decide)
    refine ⟨⟨fun _ => Or.inr hobj, fun _ => parseRequestBody_nonobject (JsValue.boolV b) rfl⟩, ?_⟩
    constructor
    · intro h
      rw [parseRequestBody_nonobject (JsValue.boolV b) rfl] at h
      exact absurd h error_invalid_ne_missing
    · rintro ⟨_, h2, _⟩
      exact absurd h2 hobj
  | numV n =>
    have hobj : ¬ typeofJs (JsValue.numV n) = jstr "object" :=
      fun h => absurd (show jstr "number" = jstr "object" from h) (by decide)
    refine ⟨⟨fun _ => Or.inr hobj, fun _ => parseRequestBody_nonobject (JsValue.numV n) rfl⟩, ?_⟩
    constructor
    · intro h
      rw [parseRequestBody_nonobject (JsValue.numV n) rfl] at h
      exact absurd h error_invalid_ne_missing
    · rintro ⟨_, h2, _⟩
      exact absurd h2 hobj
  | strV s =>
    have hobj : ¬ typeofJs (JsValue.strV s) = jstr "object" :=
      fun h => absurd (show jstr "string" = jstr "object" from h) (by decide)
    refine ⟨⟨fun _ => Or.inr hobj, fun _ => parseRequestBody_nonobject (JsValue.strV s) rfl⟩, ?_⟩
    constructor
    · intro h
      rw [parseRequestBody_nonobject (JsValue.strV s) rfl] at h
      exact absurd h error_invalid_ne_missing
    · rintro ⟨_, h2, _⟩
      exact absurd h2 hobj
  | arrV elems =>
    have heval : parseRequestBody (.arrV elems) =
        .error { type := .MISSING_URL, message := jstr "URL is required" } := rfl
    rw [heval]
    refine ⟨⟨fun h => absurd h.symm error_invalid_ne_missing, ?_⟩, ?_⟩
    · rintro (h | h)
      · exact absurd h (by simp)
      · exact absurd rfl h
    · constructor
      · intro _
        refine ⟨by simp, rfl, ?_⟩
        intro s hs
        exact absurd (show JsValue.undefinedV = JsValue.strV s from hs) (by simp)
      · intro _
        rfl
  | objV fields =>
    rw [parseRequestBody_object_eval fields]
    have hgp : getProp (.objV fields) (jstr "url") =
        (match fields.lookup (jstr "url") with
         | some w => w
         | none => .undefinedV) := rfl
    cases hl : fields.lookup (jstr "url") with
    | none =>
      refine ⟨⟨fun h => absurd h.symm error_invalid_ne_missing, ?_⟩, ?_⟩
      · rintro (h | h)
        · exact absurd h (by simp)
        · exact absurd rfl h
      · constructor
        · intro _
          refine ⟨by simp, rfl, ?_⟩
          intro s hs
          rw [hgp, hl] at hs
          exact absurd hs (by simp)
        · intro _
          rfl
    | some v =>
      cases v with
      | strV s =>
        by_cases htrim : jsTrim s = []
        · have ht : (jsTrim s == []) = true := beq_iff_eq.mpr htrim
          simp only [ht, Bool.or_true, if_true]
          refine ⟨⟨fun h => absurd h.symm error_invalid_ne_missing, ?_⟩, ?_⟩
          · rintro (h | h)
            · exact absurd h (by simp)
            · exact absurd rfl h
          · constructor
            · intro _
              refine ⟨by simp, rfl, ?_⟩
              intro s2 hs2
              rw [hgp, hl] at hs2
              injection hs2 with h2
              rw [← h2]
              exact htrim
            · intro _
              trivial
        · have htf : (jsTrim s == []) = false := beq_eq_false_iff_ne.mpr htrim
          have hse : s.isEmpty = false := by
            cases s with
            | nil => exact absurd rfl htrim
            | cons c t => rfl
          simp only [htf, hse, Bool.or_false]
          rw [if_neg (by simp)]
          refine ⟨⟨fun h => absurd h (by simp), ?_⟩, ?_⟩
          · rintro (h | h)
            · exact absurd h (by simp)
            · exact absurd rfl h
          · constructor
            · intro h
              exact absurd h (by simp)
            · rintro ⟨_, _, hall⟩
              exact absurd (hall s (by rw [hgp, hl])) htrim
      | nullV =>
        refine ⟨⟨fun h => absurd h.symm error_invalid_ne_missing, ?_⟩, ?_⟩
        · rintro (h | h)
          · exact absurd h (by simp)
          · exact absurd rfl h
        · refine ⟨fun _ => ⟨by simp, rfl, ?_⟩, fun _ => rfl⟩
          intro s hs
          rw [hgp, hl] at hs
          exact absurd hs (by simp)
      | undefinedV =>
        refine ⟨⟨fun h => absurd h.symm error_invalid_ne_missing, ?_⟩, ?_⟩
        · rintro (h | h)
          · exact absurd h (by simp)
          · exact absurd rfl h
        · refine ⟨fun _ => ⟨by simp, rfl, ?_⟩, fun _ => rfl⟩
          intro s hs
          rw [hgp, hl] at hs
          exact absurd hs (by simp)
      | boolV b =>
        refine ⟨⟨fun h => absurd h.symm error_invalid_ne_missing, ?_⟩, ?_⟩
        · rintro (h | h)
          · exact absurd h (by simp)
          · exact absurd rfl h
        · refine ⟨fun _ => ⟨by simp, rfl, ?_⟩, fun _ => rfl⟩
          intro s hs
          rw [hgp, hl] at hs
          exact absurd hs (by simp)
      | numV n =>
        refine ⟨⟨fun h => absurd h.symm error_invalid_ne_missing, ?_⟩, ?_⟩
        · rintro (h | h)
          · exact absurd h (by simp)
          · exact absurd rfl h
        · refine ⟨fun _ => ⟨by simp, rfl, ?_⟩, fun _ => rfl⟩
          intro s hs
          rw [hgp, hl] at hs
          exact absurd hs (by simp)
      | objV f2 =>
        refine ⟨⟨fun h => absurd h.symm error_invalid_ne_missing, ?_⟩, ?_⟩
        · rintro (h | h)
          · exact absurd h (by simp)
          · exact absurd rfl h
        · refine ⟨fun _ => ⟨by simp, rfl, ?_⟩, fun _ => rfl⟩
          intro s hs
          rw [hgp, hl] at hs
          exact absurd hs (by simp)
      | arrV e2 =>
        refine ⟨⟨fun h => absurd h.symm error_invalid_ne_missing, ?_⟩, ?_⟩
        · rintro (h | h)
          · exact absurd h (by simp)
          · exact absurd rfl h
        · refine ⟨fun _ => ⟨by simp, rfl, ?_⟩, fun _ => rfl⟩
          intro s hs
          rw [hgp, hl] at hs
          exact absurd hs (by simp)

/-- C6 witness: the amended theorem applied to an uppercase Atom link,
which is emitted with type Atom. -/
theorem processLinkElement_type_witness :
    (processLinkElement resolveFeedXml
      { rel := some (jstr "alternate"), type := some (jstr "APPLICATION/ATOM+XML"),
        href := some (jstr "/feed.xml"), title := some (jstr "Atom Feed") } =
      some { url := jstr "https://example.com/feed.xml", title := jstr "Atom Feed",
             type := jstr "Atom", discoveryMethod := jstr "meta-tag" }) ∧
    ({ url := jstr "https://example.com/feed.xml", title := jstr "Atom Feed",
       type := jstr "Atom", discoveryMethod := jstr "meta-tag" } : FeedResult).type =
      extractFeedTypeTitle (jstr "APPLICATION/ATOM+XML") := by
  exact ⟨rfl, (processLinkElement_type_from_extractFeedTypeTitle resolveFeedXml
    { rel := some (jstr "alternate"), type := some (jstr "APPLICATION/ATOM+XML"),
      href := some (jstr "/feed.xml"), title := some (jstr "Atom Feed") }
    { url := jstr "https://example.com/feed.xml", title := jstr "Atom Feed",
      type := jstr "Atom", discoveryMethod := jstr "meta-tag" }
    (jstr "APPLICATION/ATOM+XML") rfl rfl).1⟩

/-- Concrete parse-success oracle for the idempotence witness. -/
def parseOkW : JStr → Bool := fun s => s == jstr "https://example.com"

/-- C7: normalizeUrl is idempotent on its successes: a produced output
always starts with http and passes every rejection check again, so
re-normalizing returns the same string. -/
theorem normalizeUrl_idempotent (parseOk : JStr → Bool) (x y : JStr)
    (h : normalizeUrl parseOk x = .ok y) : normalizeUrl parseOk y = .ok y := by
  unfold normalizeUrl at h
  split at h
  · exact absurd h (by simp)
  · split at h
    · exact absurd h (by simp)
    · split at h
      · exact absurd h (by simp)
      · rename_i hc1 hc2 hc3
        split at h
        · rename_i hsx
          have h2 : (if parseOk x = true then (Except.ok x : Except AppError JStr)
              else .error { type := .INVALID_URL_FORMAT,
                            message := jstr "Invalid URL format" }) = .ok y := h
          by_cases hc4 : parseOk x = true
          · rw [if_pos hc4] at h2
            have hy : x = y := Except.ok.inj h2
            subst hy
            unfold normalizeUrl
            rw [if_neg hc1, if_neg hc2, if_neg hc3, if_pos hsx]
            show (if parseOk x = true then (Except.ok x : Except AppError JStr)
              else .error { type := .INVALID_URL_FORMAT,
                            message := jstr "Invalid URL format" }) = .ok x
            rw [if_pos hc4]
          · rw [if_neg hc4] at h2
            exact absurd h2 (by simp)
        · rename_i hsx
          have h2 : (if parseOk (jstr "https://" ++ x) = true then
                (Except.ok (jstr "https://" ++ x) : Except AppError JStr)
              else .error { type := .INVALID_URL_FORMAT,
                            message := jstr "Invalid URL format" }) = .ok y := h
          by_cases hc4 : parseOk (jstr "https://" ++ x) = true
          · rw [if_pos hc4] at h2
            have hy : jstr "https://" ++ x = y := Except.ok.inj h2
            subst hy
            have hxne : x ≠ [] := by
              intro hxe
              exact hc1 (by subst hxe; rfl)
            have hstart : jsStartsWith (jstr "https://" ++ x) (jstr "http") = true := by
              rw [show jstr "https://" ++ x = jstr "http" ++ (jstr "s://" ++ x) from rfl]
              exact jsStartsWith_append (jstr "http") (jstr "s://" ++ x)
            have hc1y : ¬ ((jstr "https://" ++ x).isEmpty ||
                (jsTrim (jstr "https://" ++ x) == [])) = true := by
              intro hcontra
              rw [show jstr "https://" ++ x = 'h' :: (jstr "ttps://" ++ x) from rfl] at hcontra
              rcases Bool.or_eq_true_iff.mp hcontra with he | ht
              · exact absurd he (by simp [List.isEmpty])
              · exact absurd (beq_iff_eq.mp ht)
                  (jsTrim_cons_not_ws 'h' (jstr "ttps://" ++ x) rfl)
            have hc2y : ¬ (jsIncludes (jstr "https://" ++ x) (jstr "://") &&
                !jsStartsWith (jstr "https://" ++ x) (jstr "http://") &&
                !jsStartsWith (jstr "https://" ++ x) (jstr "https://")) = true := by
              intro hcontra
              have hs : jsStartsWith (jstr "https://" ++ x) (jstr "https://") = true :=
                jsStartsWith_append (jstr "https://") x
              rw [hs] at hcontra
              simp at hcontra
            have hincnot : jsIncludes x (jstr "://") = false := by
              cases hi : jsIncludes x (jstr "://") with
              | false => rfl
              | true =>
                exfalso
                apply hc2
                have hs1 : jsStartsWith x (jstr "http://") = false := by
                  cases hs0 : jsStartsWith x (jstr "http://") with
                  | false => rfl
                  | true =>
                    exact absurd (isPrefixOf_of_append_isPrefixOf (jstr "http") (jstr "://") x
                      (by rw [show jstr "http" ++ jstr "://" = jstr "http://" from rfl]
                          exact hs0)) hsx
                have hs2 : jsStartsWith x (jstr "https://") = false := by
                  cases hs0 : jsStartsWith x (jstr "https://") with
                  | false => rfl
                  | true =>
                    exact absurd (isPrefixOf_of_append_isPrefixOf (jstr "http") (jstr "s://") x
                      (by rw [show jstr "http" ++ jstr "s://" = jstr "https://" from rfl]
                          exact hs0)) hsx
                rw [hi, hs1, hs2]
                rfl
            have hc3y : ¬ ((jstr "https://" ++ x == jstr "http:/") ||
                (jstr "https://" ++ x == jstr "https:/") ||
                jsEndsWith (jstr "https://" ++ x) (jstr "://")) = true := by
              intro hcontra
              rcases Bool.or_eq_true_iff.mp hcontra with h12 | hends
              · rcases Bool.or_eq_true_iff.mp h12 with h1 | hb2
                · have := congrArg List.length (beq_iff_eq.mp h1)
                  rw [length_append_https] at this
                  rw [show (jstr "http:/").length = 6 from rfl] at this
                  omega
                · have := congrArg List.length (beq_iff_eq.mp hb2)
                  rw [length_append_https] at this
                  rw [show (jstr "https:/").length = 7 from rfl] at this
                  omega
              · have := endsWith_https_append x hxne hends
                rw [hincnot] at this
                exact absurd this (by simp)
            unfold normalizeUrl
            rw [if_neg hc1y, if_neg hc2y, if_neg hc3y, if_pos hstart]
            show (if parseOk (jstr "https://" ++ x) = true then
                (Except.ok (jstr "https://" ++ x) : Except AppError JStr)
              else .error { type := .INVALID_URL_FORMAT,
                            message := jstr "Invalid URL format" }) =
              .ok (jstr "https://" ++ x)
            rw [if_pos hc4]
          · rw [if_neg hc4] at h2
            exact absurd h2 (by simp)

/-- C7 witness: the theorem applied to the normalization of example.com,
whose output re-normalizes to itself. -/
theorem normalizeUrl_idempotent_witness :
    normalizeUrl parseOkW (jstr "example.com") = .ok (jstr "https://example.com") ∧
    normalizeUrl parseOkW (jstr "https://example.com") = .ok (jstr "https://example.com") := by
  have h1 : normalizeUrl parseOkW (jstr "example.com") = .ok (jstr "https://example.com") := by
    rfl
  exact ⟨h1, normalizeUrl_idempotent parseOkW (jstr "example.com")
    (jstr "https://example.com") h1⟩

theorem probeCandidate_isOk (env : ProbeEnv) (pu : JStr × JStr) :
    ∃ v, probeCandidate env pu = .ok v := by
  unfold probeCandidate
  cases hh : env.head pu.2 with
  | failure e => exact ⟨none, rfl⟩
  | success ct =>
    by_cases hf : isFeedContentType (jsToLower (ct.getD [])) = true
    · refine ⟨some { url := pu.2,
                     title := pu.1 ++ jstr " feed",
                     type := if jsIncludes (ct.getD []) (jstr "atom") then jstr "Atom"
                             else jstr "RSS",
                     discoveryMethod := jstr "common-path" }, ?_⟩
      simp [hf]
    · refine ⟨none, ?_⟩
      simp [hf]

theorem combineAll_map_probe (env : ProbeEnv) (l : List (JStr × JStr)) :
    combineAll (l.map (probeCandidate env)) =
      .ok (l.map (fun pu =>
        match probeCandidate env pu with
        | .ok v => v
        | .error _ => none)) := by
  induction l with
  | nil => rfl
  | cons pu rest ih =>
    obtain ⟨v, hv⟩ := probeCandidate_isOk env pu
    simp only [List.map_cons, combineAll, hv, ih]

theorem tryCommonPaths_eq_ok (env : ProbeEnv) (baseUrl : JStr) :
    tryCommonPaths env baseUrl =
      .ok ((validFeedUrls env baseUrl).filterMap (fun pu =>
        match probeCandidate env pu with
        | .ok v => v
        | .error _ => none)) := by
  unfold tryCommonPaths
  rw [combineAll_map_probe]
  simp [List.filterMap_map]

/-- C2 counterexample: a target that validates, whose page fetch fails
with a network error and whose single probe also fails, makes
discoverFeeds answer the successful empty list — no error is propagated. -/
theorem discoverFeeds_total_failure_ok_empty :
    discoverFeeds envFail (jstr "https://example.com") = .ok [] := by rfl

/-- C2 amended: once validation passes, discoverFeeds can no longer fail:
the prober converts every probe failure into a null result and so always
succeeds, and the fallback after a failed combine re-runs exactly that
prober, so the final result is always ok — an empty list when everything
failed. -/
theorem discoverFeeds_ok_after_validation (env : DiscoveryEnv) (u : JStr) (p : ParsedUrl)
    (h : validateTargetUrl env.parseUrl u = .ok p) :
    ∃ feeds, discoverFeeds env u = .ok feeds := by
  have hd : discoverFeeds env u =
      match combinedBranches env p.href with
      | .ok feeds => .ok feeds
      | .error _ => tryCommonPaths env.toProbeEnv p.href := by
    unfold discoverFeeds
    rw [h]
  rw [hd]
  cases combinedBranches env p.href with
  | ok feeds => exact ⟨feeds, rfl⟩
  | error e =>
    rw [tryCommonPaths_eq_ok]
    exact ⟨_, rfl⟩

/-- C2 witness: the amended theorem applied to the all-failures
environment. -/
theorem discoverFeeds_ok_after_validation_witness :
    validateTargetUrl envFail.parseUrl (jstr "https://example.com") =
      .ok { protocol := jstr "https:", hostname := jstr "example.com", port := [],
            href := jstr "https://example.com/" } ∧
    ∃ feeds, discoverFeeds envFail (jstr "https://example.com") = .ok feeds := by
  have h : validateTargetUrl envFail.parseUrl (jstr "https://example.com") =
      .ok { protocol := jstr "https:", hostname := jstr "example.com", port := [],
            href := jstr "https://example.com/" } := by rfl
  exact ⟨h, discoverFeeds_ok_after_validation envFail (jstr "https://example.com") _ h⟩

/-- C3 counterexample: in the all-failures environment one discovery call
issues the GET once but the HEAD probe of the one valid candidate twice —
once in the combine phase and once more in the fallback re-run. -/
theorem discoverFeedsRequests_head_probed_twice :
    discoverFeedsRequests envFail (jstr "https://example.com") =
      [{ method := jstr "GET", url := jstr "https://example.com/" },
       { method := jstr "HEAD", url := jstr "https://example.com/feed.xml" },
       { method := jstr "HEAD", url := jstr "https://example.com/feed.xml" }] ∧
    (discoverFeedsRequests envFail (jstr "https://example.com")).count
      { method := jstr "HEAD", url := jstr "https://example.com/feed.xml" } = 2 := by
  exact ⟨by rfl, by rfl⟩

/-- C3 amended: after validation, a discovery call fetches the page once
and issues one HEAD per valid candidate when the combine succeeds; when
the combine fails (the HTML branch failing suffices) the fallback re-runs
the prober and every candidate HEAD is issued a second time — twice in
total, not exactly once. -/
theorem discoverFeedsRequests_once_or_twice (env : DiscoveryEnv) (u : JStr) (p : ParsedUrl)
    (h : validateTargetUrl env.parseUrl u = .ok p) :
    (∀ feeds, combinedBranches env p.href = .ok feeds →
      discoverFeedsRequests env u =
        { method := jstr "GET", url := p.href } ::
          tryCommonPathsRequests env.toProbeEnv p.href) ∧
    (∀ e, combinedBranches env p.href = .error e →
      discoverFeedsRequests env u =
        { method := jstr "GET", url := p.href } ::
          (tryCommonPathsRequests env.toProbeEnv p.href ++
            tryCommonPathsRequests env.toProbeEnv p.href) ∧
      ∀ r ∈ tryCommonPathsRequests env.toProbeEnv p.href,
        (discoverFeedsRequests env u).count r =
          2 * (tryCommonPathsRequests env.toProbeEnv p.href).count r) := by
  have hd : discoverFeedsRequests env u =
      { method := jstr "GET", url := p.href } ::
        (tryCommonPathsRequests env.toProbeEnv p.href ++
          match combinedBranches env p.href with
          | .ok _ => []
          | .error _ => tryCommonPathsRequests env.toProbeEnv p.href) := by
    unfold discoverFeedsRequests
    rw [h]
  constructor
  · intro feeds hc
    rw [hd, hc]
    simp
  · intro e hc
    rw [hd, hc]
    refine ⟨rfl, ?_⟩
    intro r hr
    obtain ⟨pu, _, hpu⟩ := List.mem_map.mp hr
    have hne : (({ method := jstr "GET", url := p.href } : Request) == r) = false := by
      apply beq_eq_false_iff_ne.mpr
      intro hcontra
      have hm := congrArg Request.method hcontra
      rw [← hpu] at hm
      have hm2 : jstr "GET" = jstr "HEAD" := hm
      exact absurd hm2 (by decide)
    rw [List.count_cons, List.count_append, hne]
    simp only [Bool.false_eq_true, if_false]
    omega

theorem filterMap_decompose {A B : Type} (f : A → Option B) (l1 l2 l3 : List A)
    (a b : A) (x y : B) (hfa : f a = some x) (hfb : f b = some y) :
    (l1 ++ a :: (l2 ++ b :: l3)).filterMap f =
      l1.filterMap f ++ x :: (l2.filterMap f ++ y :: l3.filterMap f) := by
  simp only [List.filterMap_append, List.filterMap_cons, hfa, hfb]

/-- C3 witness: the amended theorem applied to the all-failures
environment, where the combine fails and the probe HEADs appear twice. -/
theorem discoverFeedsRequests_once_or_twice_witness :
    validateTargetUrl envFail.parseUrl (jstr "https://example.com") =
      .ok { protocol := jstr "https:", hostname := jstr "example.com", port := [],
            href := jstr "https://example.com/" } ∧
    discoverFeedsRequests envFail (jstr "https://example.com") =
      { method := jstr "GET", url := jstr "https://example.com/" } ::
        (tryCommonPathsRequests envFail.toProbeEnv (jstr "https://example.com/") ++
          tryCommonPathsRequests envFail.toProbeEnv (jstr "https://example.com/")) := by
  have h : validateTargetUrl envFail.parseUrl (jstr "https://example.com") =
      .ok { protocol := jstr "https:", hostname := jstr "example.com", port := [],
            href := jstr "https://example.com/" } := by rfl
  have hc : combinedBranches envFail (jstr "https://example.com/") =
      .error { type := .NETWORK_ERROR, message := jstr "Network error: refused" } := by rfl
  exact ⟨h, ((discoverFeedsRequests_once_or_twice envFail (jstr "https://example.com")
    { protocol := jstr "https:", hostname := jstr "example.com", port := [],
      href := jstr "https://example.com/" } h).2
    { type := .NETWORK_ERROR, message := jstr "Network error: refused" } hc).1⟩

/-- C8: for a base whose root-absolute and path-relative feed.xml
candidates resolve to the same validated URL, the prober probes that URL
twice and, when the HEAD answers with a feed content-type, returns two
FeedResult entries carrying the same url — no deduplication happens in
tryCommonPaths. -/
theorem tryCommonPaths_duplicate_feed_xml (env : ProbeEnv) (base u : JStr) (p : ParsedUrl)
    (ct : JStr)
    (hres1 : env.resolve base (jstr "/feed.xml") = some u)
    (hres2 : env.resolve base (jstr "feed.xml") = some u)
    (hval : validateTargetUrl env.parseUrl u = .ok p)
    (hhead : env.head p.href = .success (some ct))
    (hct : isFeedContentType (jsToLower ct) = true) :
    ∃ feeds, tryCommonPaths env base = .ok feeds ∧
      2 ≤ (feeds.filter (fun f => f.url == p.href)).length ∧
      2 ≤ ((tryCommonPathsRequests env base).filter (fun r => r.url == p.href)).length := by
  have hsplit : commonPaths =
      [jstr "/feed", jstr "/feeds", jstr "/rss", jstr "/rss.xml"] ++
        jstr "/feed.xml" ::
          ([jstr "/atom.xml", jstr "/index.xml", jstr "feed/", jstr "feeds/", jstr "rss/"] ++
            jstr "feed.xml" :: [jstr "rss.xml", jstr "atom.xml", jstr "index.xml"]) := rfl
  have hf1 : (match env.resolve base (jstr "/feed.xml") with
      | none => none
      | some feedUrl =>
        match validateTargetUrl env.parseUrl feedUrl with
        | .ok validated => some (jstr "/feed.xml", validated.href)
        | .error _ => none) = some (jstr "/feed.xml", p.href) := by
    rw [hres1]
    simp [hval]
  have hf2 : (match env.resolve base (jstr "feed.xml") with
      | none => none
      | some feedUrl =>
        match validateTargetUrl env.parseUrl feedUrl with
        | .ok validated => some (jstr "feed.xml", validated.href)
        | .error _ => none) = some (jstr "feed.xml", p.href) := by
    rw [hres2]
    simp [hval]
  have hvfu : validFeedUrls env base =
      ([jstr "/feed", jstr "/feeds", jstr "/rss", jstr "/rss.xml"].filterMap fun path =>
          match env.resolve base path with
          | none => none
          | some feedUrl =>
            match validateTargetUrl env.parseUrl feedUrl with
            | .ok validated => some (path, validated.href)
            | .error _ => none) ++
        (jstr "/feed.xml", p.href) ::
          (([jstr "/atom.xml", jstr "/index.xml", jstr "feed/", jstr "feeds/",
              jstr "rss/"].filterMap fun path =>
            match env.resolve base path with
            | none => none
            | some feedUrl =>
              match validateTargetUrl env.parseUrl feedUrl with
              | .ok validated => some (path, validated.href)
              | .error _ => none) ++
            (jstr "feed.xml", p.href) ::
              ([jstr "rss.xml", jstr "atom.xml", jstr "index.xml"].filterMap fun path =>
                match env.resolve base path with
                | none => none
                | some feedUrl =>
                  match validateTargetUrl env.parseUrl feedUrl with
                  | .ok validated => some (path, validated.href)
                  | .error _ => none)) := by
    unfold validFeedUrls
    rw [hsplit]
    exact filterMap_decompose _ _ _ _ _ _ _ _ hf1 hf2
  have hfeed : ∀ path : JStr, (match probeCandidate env (path, p.href) with
      | .ok v => v
      | .error _ => none) =
      some { url := p.href,
             title := path ++ jstr " feed",
             type := if jsIncludes ct (jstr "atom") then jstr "Atom" else jstr "RSS",
             discoveryMethod := jstr "common-path" } := by
    intro path
    unfold probeCandidate
    have hh2 : env.head (path, p.href).2 = .success (some ct) := hhead
    rw [hh2]
    simp [hct]
  have hbeq : ∀ path : JStr,
      (({ url := p.href,
          title := path ++ jstr " feed",
          type := if jsIncludes ct (jstr "atom") then jstr "Atom" else jstr "RSS",
          discoveryMethod := jstr "common-path" } : FeedResult).url == p.href) = true :=
    fun _ => beq_iff_eq.mpr rfl
  refine ⟨_, tryCommonPaths_eq_ok env base, ?_, ?_⟩
  · rw [hvfu]
    rw [filterMap_decompose (fun pu =>
          match probeCandidate env pu with
          | .ok v => v
          | .error _ => none) _ _ _ (jstr "/feed.xml", p.href) (jstr "feed.xml", p.href) _ _
        (hfeed (jstr "/feed.xml")) (hfeed (jstr "feed.xml"))]
    simp only [List.filter_append, List.filter_cons, hbeq, beq_self_eq_true, if_true,
      List.length_append, List.length_cons]
    omega
  · unfold tryCommonPathsRequests
    rw [hvfu]
    have hrb : (({ method := jstr "HEAD", url := p.href } : Request).url == p.href) = true :=
      beq_iff_eq.mpr rfl
    simp only [List.map_append, List.map_cons, List.filter_append, List.filter_cons, hrb,
      beq_self_eq_true, if_true, List.length_append, List.length_cons]
    omega

/-- C8 witness: the theorem applied to the concrete root-base environment
where both feed.xml candidates resolve to the same URL. -/
theorem tryCommonPaths_duplicate_feed_xml_witness :
    ∃ feeds, tryCommonPaths probeEnvRoot (jstr "https://example.com/") = .ok feeds ∧
      2 ≤ (feeds.filter
            (fun f => f.url == jstr "https://example.com/feed.xml")).length ∧
      2 ≤ ((tryCommonPathsRequests probeEnvRoot (jstr "https://example.com/")).filter
            (fun r => r.url == jstr "https://example.com/feed.xml")).length := by
  exact tryCommonPaths_duplicate_feed_xml probeEnvRoot (jstr "https://example.com/")
    (jstr "https://example.com/feed.xml")
    { protocol := jstr "https:", hostname := jstr "example.com", port := [],
      href := jstr "https://example.com/feed.xml" }
    (jstr "application/rss+xml") rfl rfl rfl rfl rfl

/-- C9: the primary DOM path of findMetaFeeds keeps duplicates — the same
qualifying link element twice yields two identical FeedResult entries —
while the string-parsing fallback on the same duplicated HTML returns one
entry, and the orchestrator merge also collapses the pair to one. -/
theorem findMetaFeeds_dom_path_no_dedup :
    findMetaFeeds (fun _ => some [dupLink, dupLink]) resolveFeedXml htmlDup =
      [dupFeed, dupFeed] ∧
    findMetaFeeds (fun _ => none) resolveFeedXml htmlDup = [dupFeed] ∧
    mergeDedup [dupFeed, dupFeed] [] = [dupFeed] := by
  exact ⟨by rfl, by rfl, by rfl⟩

end FeedFinder
